import Mathlib

set_option autoImplicit false

/-
  Verification of the mountpath manager (fs/mountfs.go) and the target-side
  transaction coordinator (ais/tgttxn.go) of the AIStore target-local storage
  core, against its natural-language specification.

  Machine integers: the Go code uses int32/int64/uint64 for percentages,
  thresholds and byte counts.  All values involved (percentages in 0..100,
  byte totals of real disks, BMD versions) are far below any overflow
  boundary, so they are embedded as Nat/Int without wrap-around.
-/

namespace AIStore

/- ========================== DEFINITIONS ========================== -/

/- ===== Capacity monitor (fs/mountfs.go:1019-1057, RefreshCapStatus) ===== -/

/-- Capacity of one mountpath (mountfs.go:70-74): used/avail bytes and the
used percentage as sampled by `getCapacity` (mountfs.go:440).  `PctUsed` is a
Go int32 holding a non-negative percentage. -/
structure Capacity where
  used : Nat
  avail : Nat
  pctUsed : Nat
  deriving Repr, DecidableEq

/-- CapStatus (mountfs.go:102-109): the cluster-wide aggregate.  `hasErr`
models `Err != nil`. -/
structure CapStatus where
  totalUsed : Nat
  totalAvail : Nat
  pctAvg : Nat
  pctMax : Nat
  hasErr : Bool
  oos : Bool
  deriving Repr, DecidableEq

def CapStatus.zero : CapStatus :=
  { totalUsed := 0, totalAvail := 0, pctAvg := 0, pctMax := 0,
    hasErr := false, oos := false }

/-- Cached capacity state of the registry (mountfs.go:96-100): the cached
`capStatus` plus the `capTime.curr / capTime.next` refresh timestamps. -/
structure MfsCapState where
  capStatus : CapStatus
  capTimeCurr : Int
  capTimeNext : Int
  deriving Repr, DecidableEq

/-- Result of `RefreshCapStatus`. -/
inductive RefreshRes
  | ok (cs : CapStatus)
  | errNoMountpaths
  | errStatfs
  deriving Repr, DecidableEq

/-- Output of `RefreshCapStatus`: the returned value, the (possibly updated)
cached state, and how many statfs syscalls were performed. -/
structure RefreshOut where
  res : RefreshRes
  state : MfsCapState
  statfsCalls : Nat
  deriving Repr, DecidableEq

/-- The accumulation loop of RefreshCapStatus (mountfs.go:1032-1044).  Each
list element is one available mountpath's statfs outcome (`none` = the statfs
syscall failed, which makes the loop return early).  The accumulator mirrors
the Go code: totals are summed, `PctMax` is folded with max, `PctAvg` first
accumulates the sum of percentages. -/
def refreshLoop : List (Option Capacity) → CapStatus → Nat → Option CapStatus × Nat
  | [], cs, k => (some cs, k)
  | none :: _, _, k => (none, k + 1)
  | some c :: rest, cs, k =>
      refreshLoop rest
        { cs with
          totalUsed := cs.totalUsed + c.used
          totalAvail := cs.totalAvail + c.avail
          pctMax := Nat.max cs.pctMax c.pctUsed
          pctAvg := cs.pctAvg + c.pctUsed }
        (k + 1)

/-- RefreshCapStatus (mountfs.go:1019-1057).  `high` and `oosWM` are the
`config.LRU.HighWM` / `config.LRU.OOS` watermarks; `mis` lists the statfs
outcomes of the available mountpaths (in registry iteration order; the
aggregates are order-insensitive); `st` is the cached capacity state; `now`
and `nextIv` stand for `mono.NanoTime()` and `nextRefresh(config)`.  With no
available mountpaths it returns `ErrNoMountpaths` before any statfs call and
before the `PctAvg` division, leaving the cached state unchanged. -/
def refreshCapStatus (high oosWM : Nat) (mis : List (Option Capacity))
    (st : MfsCapState) (now nextIv : Int) : RefreshOut :=
  if mis.length = 0 then
    { res := .errNoMountpaths, state := st, statfsCalls := 0 }
  else
    match refreshLoop mis CapStatus.zero 0 with
    | (none, k) => { res := .errStatfs, state := st, statfsCalls := k }
    | (some cs, k) =>
        let oosFlag := decide (oosWM < cs.pctMax)
        let cs' : CapStatus :=
          { cs with
            pctAvg := cs.pctAvg / mis.length
            oos := oosFlag
            hasErr := oosFlag || decide (high < cs.pctMax) }
        { res := .ok cs'
          state := { capStatus := cs', capTimeCurr := now, capTimeNext := now + nextIv }
          statfsCalls := k }

/- ===== Bucket-dir rename with rollback (fs/mountfs.go:942-969) ===== -/

/-- Existence of the source and destination bucket directories on one
mountpath. -/
structure BckDirs where
  srcExists : Bool
  dstExists : Bool
  deriving Repr, DecidableEq

/-- One available mountpath as seen by `RenameBucketDirs`: its directory
state plus an oracle for the two `os.Rename` syscalls (`fwdOk`: the forward
rename incurs no I/O error; `rbOk`: the rollback rename incurs no I/O
error).  A rename additionally fails when its source directory is absent. -/
structure RenameMp where
  dirs : BckDirs
  fwdOk : Bool
  rbOk : Bool
  deriving Repr, DecidableEq

/-- The forward pass of RenameBucketDirs (mountfs.go:945-956), with `i` the
index of the first mountpath in the list.  For each mountpath in registry
order: `os.RemoveAll(toPath)` (destination dropped), then
`os.Rename(fromPath, toPath)`; on the first rename error the loop breaks.
Returns the directory states (same order), the indices renamed so far (in
rename order), and the index of the failed rename if any. -/
def fwdPass : List RenameMp → Nat → List BckDirs × List Nat × Option Nat
  | [], _ => ([], [], none)
  | m :: rest, i =>
    if m.dirs.srcExists && m.fwdOk then
      let r := fwdPass rest (i + 1)
      (⟨false, true⟩ :: r.1, i :: r.2.1, r.2.2)
    else
      (⟨m.dirs.srcExists, false⟩ :: rest.map RenameMp.dirs, [], some i)

/-- One rollback step (mountfs.go:962-966): rename the destination back to
the source on mountpath `i`; a failure is only logged, leaving the
directories as they are. -/
def rbStep (rbOkAt : Nat → Bool) (dirs : List BckDirs) (i : Nat) : List BckDirs :=
  match dirs.get? i with
  | some d => if d.dstExists && rbOkAt i then dirs.set i ⟨true, false⟩ else dirs
  | none => dirs

/-- The rollback loop of RenameBucketDirs (mountfs.go:961-967): iterate the
`renamed` slice (in the order given), attempting the reverse rename on each;
also returns the order in which rollback renames were attempted. -/
def rollbackPass (rbOkAt : Nat → Bool) (dirs : List BckDirs) :
    List Nat → List BckDirs × List Nat
  | [] => (dirs, [])
  | i :: is =>
      let r := rollbackPass rbOkAt (rbStep rbOkAt dirs i) is
      (r.1, i :: r.2)

/-- Output of RenameBucketDirs: final directory states per mountpath, the
indices renamed by the forward pass (in rename order), the indices on which a
rollback rename was attempted (in attempt order; empty on success), and the
original rename error (`some i` = forward rename on mountpath `i` failed). -/
structure RenameOut where
  dirs : List BckDirs
  renamedIdx : List Nat
  rollbackIdx : List Nat
  err : Option Nat
  deriving Repr, DecidableEq

def rbOkOf (mps : List RenameMp) : Nat → Bool :=
  fun i => ((mps.get? i).map RenameMp.rbOk).getD false

/-- RenameBucketDirs (mountfs.go:942-969): forward pass over the available
mountpaths; if some rename failed, roll the already-renamed mountpaths back
by iterating the `renamed` slice, and return the original error (a rollback
failure is only logged). -/
def renameBucketDirs (mps : List RenameMp) : RenameOut :=
  match (fwdPass mps 0).2.2 with
  | none =>
      { dirs := (fwdPass mps 0).1, renamedIdx := (fwdPass mps 0).2.1,
        rollbackIdx := [], err := none }
  | some k =>
      { dirs := (rollbackPass (rbOkOf mps) (fwdPass mps 0).1 (fwdPass mps 0).2.1).1
        renamedIdx := (fwdPass mps 0).2.1
        rollbackIdx := (rollbackPass (rbOkOf mps) (fwdPass mps 0).1 (fwdPass mps 0).2.1).2
        err := some k }

/- ===== Bucket destroy (fs/mountfs.go:924-940 and 184-219) ===== -/

/-- One available mountpath as seen by `DestroyBucket`: whether the bucket
directory exists, and whether the move-to-trash operations (creating the
trash dir / renaming into it) fail on it. -/
structure DestroyMp where
  dirExists : Bool
  trashFail : Bool
  deriving Repr, DecidableEq

/-- MoveToTrash (mountfs.go:184-219): a nonexistent directory is a no-op
success (`Access` short-circuits before any trash operation); otherwise the
operation succeeds iff creating the trash directory and renaming into it
succeed. -/
def moveToTrashOk (m : DestroyMp) : Bool := !m.dirExists || !m.trashFail

/-- The counting loop of DestroyBucket (mountfs.go:927-935): `n` counts the
mountpaths whose MoveToTrash succeeded; a failure is logged and skipped. -/
def destroyLoop : List DestroyMp → Nat → Nat
  | [], n => n
  | m :: rest, n => destroyLoop rest (if moveToTrashOk m then n + 1 else n)

/-- DestroyBucket (mountfs.go:924-940): returns an error (modelled as `true`)
iff the number of successful mountpaths is smaller than the number of
available mountpaths (mountfs.go:936-938). -/
def destroyBucketErr (mps : List DestroyMp) : Bool :=
  decide (destroyLoop mps 0 < mps.length)

/- ===== Bucket-dir creation (fs/mountfs.go:398-427, createBckDirs) ===== -/

/-- State of one content-type directory of the bucket on a mountpath. -/
inductive DirState
  | missing
  | emptyDir
  | nonEmptyDir
  deriving Repr, DecidableEq

/-- One registered content type as seen by `createBckDirs`: whether it is the
workfile type (`WorkfileType`, tag "wk"), the state of its directory, and
oracles for the `IsDirEmpty` check and the `cos.CreateDir` call failing. -/
structure CTDir where
  isWork : Bool
  state : DirState
  emptyCheckFail : Bool
  createFail : Bool
  deriving Repr, DecidableEq

/-- Result of createBckDirs: the number of directories counted so far plus
the error outcome. -/
inductive CbdRes
  | ok (num : Nat)
  | errEmptyCheck (num : Nat)
  | errNotEmpty (num : Nat)
  | errCreate (num : Nat)
  deriving Repr, DecidableEq

/-- createBckDirs (mountfs.go:398-427), iterating the registered content
types.  An existing directory with `nilbmd` set is logged and counted; with
`nilbmd` unset a non-empty existing directory fails with the
bucket-dir-not-empty error unless the content type is the workfile type, in
which case the error is only logged and the directory counted
(mountfs.go:413-420); a missing directory is created and counted. -/
def createBckDirs (nilbmd : Bool) : List CTDir → Nat → CbdRes
  | [], num => .ok num
  | d :: rest, num =>
    if d.state ≠ DirState.missing then
      if nilbmd then createBckDirs nilbmd rest (num + 1)
      else if d.emptyCheckFail then .errEmptyCheck num
      else if d.state = DirState.nonEmptyDir then
        if d.isWork then createBckDirs nilbmd rest (num + 1)
        else .errNotEmpty num
      else createBckDirs nilbmd rest (num + 1)
    else if d.createFail then .errCreate num
    else createBckDirs nilbmd rest (num + 1)

/-- Processing of one content type reaches the next one without returning an
error (used to state where in the list createBckDirs stops). -/
def ctOk (nilbmd : Bool) (d : CTDir) : Bool :=
  if d.state ≠ DirState.missing then
    nilbmd || (!d.emptyCheckFail && (decide (d.state ≠ DirState.nonEmptyDir) || d.isWork))
  else !d.createFail

/- ===== Path composer and bucket-id cache (fs/mountfs.go:293-395) ===== -/

/-- Bucket namespace (`cmn.Ns`).  Modelled from the spec (section 4.3): the
namespace prefix is absent for the global namespace, `@uuid#name` for a
remote one, `#name` for a local non-global one; the global namespace has
empty uuid and name, and a namespace is remote iff its uuid is non-empty. -/
structure Ns where
  uuid : String
  name : String
  deriving Repr, DecidableEq

def Ns.isGlobal (ns : Ns) : Bool := ns.uuid = "" && ns.name = ""

def Ns.isRemote (ns : Ns) : Bool := !(ns.uuid = "")

/-- Bucket identifier (`cmn.Bck`): name, provider, namespace, and the
bucket-id carried by its properties — `props = none` models `Props == nil`,
`props = some bid` models `Props.BID = bid`. -/
structure Bck where
  name : String
  provider : String
  ns : Ns
  props : Option Nat
  deriving Repr, DecidableEq

/-- Pure path composition for a bucket directory, from makePathBuf
(mountfs.go:293-343) with an empty content type: the mountpath root, the
separator, the provider prefixed by `@`, the namespace part, then the bucket
name.  The prefix characters `@` (provider and ns uuid) and `#` (ns name)
follow the on-disk layout of spec section 6. -/
def pathOfBck (miPath : String) (b : Bck) : String :=
  miPath ++ "/@" ++ b.provider ++
  (if b.ns.isGlobal then "" else
    "/" ++ (if b.ns.isRemote then "@" ++ b.ns.uuid else "") ++ "#" ++ b.ns.name) ++
  (if b.name = "" then "" else "/" ++ b.name)

/-- The per-mountpath bucket path cache `bpc` (mountfs.go:58-61): a map from
bucket-id to the precomputed bucket directory, as an association list. -/
def BPC := List (Nat × String)

def bpcFind : BPC → Nat → Option String
  | [], _ => none
  | (k, v) :: rest, bid => if k = bid then some v else bpcFind rest bid

def bpcErase (m : BPC) (bid : Nat) : BPC :=
  m.filter (fun kv => kv.1 ≠ bid)

/-- Output of MakePathBck: the directory, the updated cache, and whether the
returned value came from the cache (instrumentation distinguishing a cached
from a newly computed path). -/
structure PathOut where
  dir : String
  bpc : BPC
  fromCache : Bool

/-- MakePathBck (mountfs.go:345-366): with `Props == nil` the path is
computed directly; otherwise the cache is consulted under the bucket-id and,
on a miss, the freshly computed path is inserted. -/
def makePathBck (miPath : String) (b : Bck) (bpc : BPC) : PathOut :=
  match b.props with
  | none => { dir := pathOfBck miPath b, bpc := bpc, fromCache := false }
  | some bid =>
    match bpcFind bpc bid with
    | some dir => { dir := dir, bpc := bpc, fromCache := true }
    | none =>
        let dir := pathOfBck miPath b
        { dir := dir, bpc := (bid, dir) :: bpc, fromCache := false }

/-- makeDelPathBck (mountfs.go:384-395): delete the bucket-id entry from the
cache and return the directory it held; when no entry is present, fall back
to `MakePathBck` (which recomputes the path and caches it again). -/
def makeDelPathBck (miPath : String) (b : Bck) (bid : Nat) (bpc : BPC) :
    String × BPC :=
  match bpcFind bpc bid with
  | some dir => (dir, bpcErase bpc bid)
  | none =>
      let r := makePathBck miPath b bpc
      (r.dir, r.bpc)

/- ===== Transaction coordinator (ais/tgttxn.go) ===== -/

/-- Error kinds of the commit phase. -/
inductive TxnErr
  | notFound
  | bmdTimeout
  | renameDirsFailed
  deriving Repr, DecidableEq

/-- A pending transaction record, keyed by UUID, carrying the BMD version the
commit must wait for. -/
structure Txn where
  uuid : String
  bmdVer : Nat
  deriving Repr, DecidableEq

/-- Modelled from the spec: the transaction registry lookup
`t.transactions.find` (its implementation is not under src/; only its callers
in tgttxn.go are) — "Looks up the Txn. If missing, ErrTxnNotFound." -/
def findTxn (tbl : List Txn) (u : String) : Option Txn :=
  tbl.find? (fun t => t.uuid = u)

/-- Modelled from the spec: `t.transactions.wait` /
`wait_for_bmd_version(n, deadline)` (not under src/) — blocks, bounded by the
caller-supplied timeout, until the locally observed BMD version is at least
`target`, returning ErrTxnBmdTimeout when the deadline is reached first.
Time is discrete; `bmdAt t` is the locally installed BMD version at instant
`t`, and instants `0..timeout` fall within the deadline. -/
def waitBmd (bmdAt : Nat → Nat) (target timeout : Nat) : Option TxnErr :=
  if (List.range (timeout + 1)).any (fun t => target ≤ bmdAt t) then none
  else some .bmdTimeout

/-- Side effects of the rename-bucket commit phase, in program order
(tgttxn.go:283-301). -/
inductive RenEffect
  | renewFastRen
  | renameDirs
  | activateGfn
  | runXact
  deriving Repr, DecidableEq

/-- Outcome of a commit: the error, if any, and the side effects performed. -/
structure CommitOut where
  err : Option TxnErr
  effects : List RenEffect
  deriving Repr, DecidableEq

/-- createBucket, commit phase (tgttxn.go:96-104): find the record (missing
gives ErrTxnNotFound), then wait for the new BMD with the caller-supplied
timeout; no further side effects appear in this handler. -/
def createBucketCommit (tbl : List Txn) (u : String) (timeout : Nat)
    (bmdAt : Nat → Nat) : Option TxnErr :=
  match findTxn tbl u with
  | none => some .notFound
  | some txn => waitBmd bmdAt txn.bmdVer timeout

/-- renameBucket, commit phase (tgttxn.go:272-303): find the record, wait for
the new BMD bounded by the timeout, and only then perform the side effects —
renew the FastRename xaction, rename the bucket directories (an error there
is returned), activate global-find mode and run the xaction.  `renameDirsOk`
is the oracle for `fs.Mountpaths.RenameBucketDirs` succeeding. -/
def renameBucketCommit (tbl : List Txn) (u : String) (timeout : Nat)
    (bmdAt : Nat → Nat) (renameDirsOk : Bool) : CommitOut :=
  match findTxn tbl u with
  | none => { err := some .notFound, effects := [] }
  | some txn =>
    match waitBmd bmdAt txn.bmdVer timeout with
    | some e => { err := some e, effects := [] }
    | none =>
        if renameDirsOk then
          { err := none
            effects := [.renewFastRen, .renameDirs, .activateGfn, .runXact] }
        else
          { err := some .renameDirsFailed, effects := [.renewFastRen] }

/- ===== SetBucketProps begin and commit (ais/tgttxn.go:173-246) ===== -/

structure MirrorProps where
  enabled : Bool
  copies : Int
  deriving Repr, DecidableEq

structure ECProps where
  enabled : Bool
  deriving Repr, DecidableEq

structure BucketProps where
  mirror : MirrorProps
  ec : ECProps
  deriving Repr, DecidableEq

/-- Validation error kinds of validateNprops. -/
inductive VErr
  | insufficientMpaths
  | capacityExceeded
  deriving Repr, DecidableEq

/-- validateNprops (tgttxn.go:212-236): with mirroring enabled in the
proposed props, the requested copy count must not exceed the number of
available mountpaths, and increasing the copy count requires the capacity
error to be nil; newly enabling EC sets the error to the capacity error
(nil when capacity is fine).  `capErr` models `t.AvgCapUsed(...).Err != nil`. -/
def validateNprops (bprops nprops : BucketProps) (mpathCount : Nat)
    (capErr : Bool) : Option VErr :=
  if nprops.mirror.enabled && decide ((mpathCount : Int) < nprops.mirror.copies) then
    some .insufficientMpaths
  else if nprops.mirror.enabled && decide (bprops.mirror.copies < nprops.mirror.copies)
      && capErr then
    some .capacityExceeded
  else if nprops.ec.enabled && !bprops.ec.enabled && capErr then
    some .capacityExceeded
  else none

/-- Kinds of typed transaction records (newTxnCreateBucket,
newTxnMakeNCopies, newTxnSetBucketProps, newTxnRenameBucket). -/
inductive TxnKind
  | createBck
  | makeNCopies
  | setBprops
  | renameBck
  deriving Repr, DecidableEq

structure TxnRec where
  uuid : String
  kind : TxnKind
  deriving Repr, DecidableEq

/-- Modelled from the spec: `t.transactions.begin` (not under src/) — the
begin creates a typed Txn record keyed by the UUID; a second begin with the
same UUID collapses to the first. -/
def txnBegin (tbl : List TxnRec) (t : TxnRec) : List TxnRec :=
  if tbl.any (fun x => x.uuid = t.uuid) then tbl else tbl ++ [t]

/-- Outcome of the setBucketProps begin phase: the validation error if any,
the transaction table afterwards, and the bucket-dir / mirror-configuration
mutations performed during begin (the begin branch of tgttxn.go:178-189
contains none — it only validates and creates the record; DoAbort and
RenewBckMakeNCopies appear only in the commit branch). -/
structure BeginOut where
  err : Option VErr
  tbl : List TxnRec
  mutations : List RenEffect
  deriving Repr, DecidableEq

/-- setBucketProps, begin phase (tgttxn.go:178-189): validate the proposed
props; on failure return the error without touching the transaction table;
on success create the typed record keyed by the UUID.  No bucket directory
or mirror configuration is mutated in this phase. -/
def setBucketPropsBegin (tbl : List TxnRec) (u : String)
    (bprops nprops : BucketProps) (mpathCount : Nat) (capErr : Bool) : BeginOut :=
  match validateNprops bprops nprops mpathCount capErr with
  | some e => { err := some e, tbl := tbl, mutations := [] }
  | none => { err := none, tbl := txnBegin tbl { uuid := u, kind := .setBprops },
              mutations := [] }

/-- remirror (tgttxn.go:238-246): the mirror configuration materially
changed — mirroring transitions from disabled to enabled, or stays enabled
with a different copy count. -/
def remirror (bprops nprops : BucketProps) : Bool :=
  if !bprops.mirror.enabled && nprops.mirror.enabled then true
  else if bprops.mirror.enabled && nprops.mirror.enabled then
    decide (bprops.mirror.copies ≠ nprops.mirror.copies)
  else false

/-- A setBucketProps transaction record with its old and proposed props. -/
structure TxnSetBprops where
  uuid : String
  bmdVer : Nat
  bprops : BucketProps
  nprops : BucketProps
  deriving Repr, DecidableEq

def findSetBprops (tbl : List TxnSetBprops) (u : String) : Option TxnSetBprops :=
  tbl.find? (fun t => t.uuid = u)

/-- Mirror-related side effects of the setBucketProps commit phase. -/
inductive MirrorEffect
  | abortPutCopies
  | renewMakeNCopies
  deriving Repr, DecidableEq

structure SetPropsCommitOut where
  err : Option TxnErr
  effects : List MirrorEffect
  deriving Repr, DecidableEq

/-- setBucketProps, commit phase (tgttxn.go:192-205): find the record, wait
for the new BMD bounded by the timeout, then — exactly when
`remirror(bprops, nprops)` holds — abort the PutCopies worker and renew
MakeNCopies with the new copy count. -/
def setBucketPropsCommit (tbl : List TxnSetBprops) (u : String) (timeout : Nat)
    (bmdAt : Nat → Nat) : SetPropsCommitOut :=
  match findSetBprops tbl u with
  | none => { err := some .notFound, effects := [] }
  | some txn =>
    match waitBmd bmdAt txn.bmdVer timeout with
    | some e => { err := some e, effects := [] }
    | none =>
        if remirror txn.bprops txn.nprops then
          { err := none, effects := [.abortPutCopies, .renewMakeNCopies] }
        else
          { err := none, effects := [] }

/- ===== Registry snapshot pair (fs/mountfs.go:678-681 and 884-899) ===== -/

/-- Steps of the writer `updatePaths` (two separate atomic stores,
mountfs.go:679-680) and of the reader `Get` (two separate atomic loads,
mountfs.go:887-888). -/
inductive RwStep
  | wAvail
  | wDisab
  | rAvail
  | rDisab
  deriving Repr, DecidableEq

/-- The two atomic pointers, abstracted by the mutation epoch of the MPI each
currently holds. -/
structure Regs where
  avail : Nat
  disab : Nat
  deriving Repr, DecidableEq

/-- What the reader has loaded so far. -/
structure ReadOut where
  avail : Option Nat
  disab : Option Nat
  deriving Repr, DecidableEq

/-- Execute an interleaved sequence of writer/reader steps: writer steps
store the new epoch `newE` into the respective atomic pointer; reader steps
load the pointer's current epoch. -/
def execSteps (newE : Nat) : List RwStep → Regs → ReadOut → Regs × ReadOut
  | [], r, o => (r, o)
  | .wAvail :: rest, r, o => execSteps newE rest { r with avail := newE } o
  | .wDisab :: rest, r, o => execSteps newE rest { r with disab := newE } o
  | .rAvail :: rest, r, o => execSteps newE rest r { o with avail := some r.avail }
  | .rDisab :: rest, r, o => execSteps newE rest r { o with disab := some r.disab }

/-- Interleavings of two step sequences that preserve the order within each:
`Merge xs ys zs` holds when `zs` is a legal schedule of one thread executing
`xs` concurrently with one thread executing `ys`. -/
inductive Merge : List RwStep → List RwStep → List RwStep → Prop
  | nil : Merge [] [] []
  | left {x : RwStep} {xs ys zs : List RwStep} :
      Merge xs ys zs → Merge (x :: xs) ys (x :: zs)
  | right {y : RwStep} {xs ys zs : List RwStep} :
      Merge xs ys zs → Merge xs (y :: ys) (y :: zs)

/-- The writer of `updatePaths`: store the available pointer, then the
disabled pointer. -/
def updatePathsSteps : List RwStep := [.wAvail, .wDisab]

/-- The reader of `Get`: load the available pointer, then the disabled
pointer. -/
def getSteps : List RwStep := [.rAvail, .rDisab]

/-- Run one `Get` concurrently with one `updatePaths` under interleaving `s`:
both pointers initially hold epoch `e1`; the writer installs epoch `e2`.
Returns the pair of epochs the reader observed. -/
def updateGetRun (e1 e2 : Nat) (s : List RwStep) : ReadOut :=
  (execSteps e2 s { avail := e1, disab := e1 } { avail := none, disab := none }).2

/- ========================== THEOREMS ========================== -/

/- ===== helper lemmas ===== -/

theorem destroyLoop_eq (mps : List DestroyMp) :
    ∀ n, destroyLoop mps n = n + mps.countP (fun m => moveToTrashOk m) := by
  induction mps with
  | nil => intro n; simp [destroyLoop]
  | cons m rest ih =>
    intro n
    by_cases h : moveToTrashOk m = true
    · simp [destroyLoop, h, ih, List.countP_cons]
      omega
    · rw [Bool.not_eq_true] at h
      simp [destroyLoop, h, ih, List.countP_cons]

theorem bpcFind_erase (m : BPC) (bid : Nat) : bpcFind (bpcErase m bid) bid = none := by
  induction m with
  | nil => rfl
  | cons kv rest ih =>
    by_cases h : kv.1 = bid
    · simpa [bpcErase, h] using (by simpa [bpcErase] using ih)
    · simpa [bpcErase, bpcFind, h] using (by simpa [bpcErase] using ih)

theorem nat_le_max_left (a b : Nat) : a ≤ Nat.max a b := Nat.le_max_left a b

theorem nat_le_max_right (a b : Nat) : b ≤ Nat.max a b := Nat.le_max_right a b

theorem nat_max_choice (a b : Nat) : Nat.max a b = a ∨ Nat.max a b = b := by
  rcases Nat.le_total a b with h | h
  · exact Or.inr (Nat.max_eq_right h)
  · exact Or.inl (Nat.max_eq_left h)

theorem le_foldl_nat_max (l : List Nat) : ∀ a, a ≤ l.foldl Nat.max a := by
  induction l with
  | nil => intro a; exact Nat.le_refl a
  | cons y ys ih =>
    intro a
    rw [List.foldl_cons]
    exact Nat.le_trans (nat_le_max_left a y) (ih (Nat.max a y))

theorem foldl_nat_max_le_of_mem (l : List Nat) :
    ∀ a x, x ∈ l → x ≤ l.foldl Nat.max a := by
  induction l with
  | nil => intro a x hx; cases hx
  | cons y ys ih =>
    intro a x hx
    rw [List.foldl_cons]
    cases hx with
    | head => exact Nat.le_trans (nat_le_max_right a y) (le_foldl_nat_max ys (Nat.max a y))
    | tail _ hmem => exact ih (Nat.max a y) x hmem

theorem foldl_nat_max_eq_or_mem (l : List Nat) :
    ∀ a, l.foldl Nat.max a = a ∨ l.foldl Nat.max a ∈ l := by
  induction l with
  | nil => intro a; exact Or.inl rfl
  | cons y ys ih =>
    intro a
    rw [List.foldl_cons]
    rcases ih (Nat.max a y) with h | h
    · rw [h]
      rcases nat_max_choice a y with h2 | h2
      · exact Or.inl h2
      · refine Or.inr ?_
        rw [h2]
        exact List.mem_cons_self y ys
    · exact Or.inr (List.mem_cons_of_mem y h)

theorem foldl_nat_max_zero_mem (l : List Nat) (h : l ≠ []) :
    l.foldl Nat.max 0 ∈ l := by
  cases l with
  | nil => exact absurd rfl h
  | cons y ys =>
    rw [List.foldl_cons]
    have hz : Nat.max 0 y = y := Nat.max_eq_right (Nat.zero_le y)
    rw [hz]
    rcases foldl_nat_max_eq_or_mem ys y with h2 | h2
    · rw [h2]
      exact List.mem_cons_self y ys
    · exact List.mem_cons_of_mem y h2

theorem refreshLoop_map_some (caps : List Capacity) :
    ∀ (acc : CapStatus) (k : Nat),
      ∃ mid, refreshLoop (caps.map some) acc k = (some mid, k + caps.length) ∧
        mid.pctMax = (caps.map Capacity.pctUsed).foldl Nat.max acc.pctMax ∧
        mid.pctAvg = acc.pctAvg + (caps.map Capacity.pctUsed).sum := by
  induction caps with
  | nil =>
    intro acc k
    exact ⟨acc, by simp [refreshLoop], by simp, by simp⟩
  | cons c cs ih =>
    intro acc k
    obtain ⟨mid, h1, h2, h3⟩ :=
      ih { acc with
            totalUsed := acc.totalUsed + c.used
            totalAvail := acc.totalAvail + c.avail
            pctMax := Nat.max acc.pctMax c.pctUsed
            pctAvg := acc.pctAvg + c.pctUsed } (k + 1)
    refine ⟨mid, ?_, ?_, ?_⟩
    · have hl : k + (c :: cs).length = k + 1 + cs.length := by
        simp [List.length_cons]
        omega
      rw [List.map_cons, hl]
      exact h1
    · rw [h2, List.map_cons, List.foldl_cons]
    · rw [h3, List.map_cons, List.sum_cons]
      exact Nat.add_assoc acc.pctAvg c.pctUsed (List.map Capacity.pctUsed cs).sum

/- ===== C3 ===== -/

/-- C3: a successful capacity refresh over a non-empty set of available
mountpaths produces a CapStatus whose pct_avg is the floor of the average of
the per-mountpath used percentages, whose pct_max is their maximum, whose
oos flag holds iff pct_max exceeds the OOS threshold, and whose error is
non-null whenever pct_max exceeds the high watermark or oos holds. -/
theorem c3_refresh_aggregate (high oosWM : Nat) (caps : List Capacity)
    (st : MfsCapState) (now nextIv : Int) (hne : caps ≠ []) :
    ∃ cs, (refreshCapStatus high oosWM (caps.map some) st now nextIv).res = .ok cs ∧
      cs.pctAvg = (caps.map Capacity.pctUsed).sum / caps.length ∧
      cs.pctMax ∈ caps.map Capacity.pctUsed ∧
      (∀ p ∈ caps.map Capacity.pctUsed, p ≤ cs.pctMax) ∧
      (cs.oos = true ↔ oosWM < cs.pctMax) ∧
      ((high < cs.pctMax ∨ cs.oos = true) → cs.hasErr = true) := by
  obtain ⟨mid, h1, h2, h3⟩ := refreshLoop_map_some caps CapStatus.zero 0
  have hlen : ¬((caps.map some).length = 0) := by
    simp only [List.length_map, List.length_eq_zero]
    exact hne
  have hres : (refreshCapStatus high oosWM (caps.map some) st now nextIv).res =
      .ok { mid with
            pctAvg := mid.pctAvg / (caps.map some).length
            oos := decide (oosWM < mid.pctMax)
            hasErr := decide (oosWM < mid.pctMax) || decide (high < mid.pctMax) } := by
    unfold refreshCapStatus
    rw [if_neg hlen, h1]
  have hmax : mid.pctMax = (caps.map Capacity.pctUsed).foldl Nat.max 0 := by
    rw [h2]
    rfl
  have hpcts : caps.map Capacity.pctUsed ≠ [] := by
    simp only [ne_eq, List.map_eq_nil_iff]
    exact hne
  refine ⟨_, hres, ?_, ?_, ?_, ?_, ?_⟩
  · show mid.pctAvg / (caps.map some).length = (caps.map Capacity.pctUsed).sum / caps.length
    rw [h3, List.length_map]
    simp [CapStatus.zero]
  · show mid.pctMax ∈ caps.map Capacity.pctUsed
    rw [hmax]
    exact foldl_nat_max_zero_mem _ hpcts
  · intro p hp
    show p ≤ mid.pctMax
    rw [hmax]
    exact foldl_nat_max_le_of_mem _ 0 p hp
  · show decide (oosWM < mid.pctMax) = true ↔ oosWM < mid.pctMax
    exact decide_eq_true_iff
  · intro hor
    show (decide (oosWM < mid.pctMax) || decide (high < mid.pctMax)) = true
    rcases hor with h | h
    · simp [h]
    · rw [Bool.or_eq_true]
      exact Or.inl h

/-- C3 witness: the spec's concrete scenario C — used percentages 92 and 96
with high watermark 90 and OOS threshold 95 — instantiating the aggregate
theorem (pct_avg = 94, pct_max = 96, oos, err non-null). -/
theorem c3_refresh_aggregate_witness :
    ∃ cs, (refreshCapStatus 90 95
        ([⟨0, 0, 92⟩, ⟨0, 0, 96⟩].map some) ⟨CapStatus.zero, 0, 0⟩ 0 0).res = .ok cs ∧
      cs.pctAvg = ([(⟨0, 0, 92⟩ : Capacity), ⟨0, 0, 96⟩].map Capacity.pctUsed).sum /
          ([(⟨0, 0, 92⟩ : Capacity), ⟨0, 0, 96⟩]).length ∧
      cs.pctMax ∈ [(⟨0, 0, 92⟩ : Capacity), ⟨0, 0, 96⟩].map Capacity.pctUsed ∧
      (∀ p ∈ [(⟨0, 0, 92⟩ : Capacity), ⟨0, 0, 96⟩].map Capacity.pctUsed, p ≤ cs.pctMax) ∧
      (cs.oos = true ↔ 95 < cs.pctMax) ∧
      ((90 < cs.pctMax ∨ cs.oos = true) → cs.hasErr = true) :=
  c3_refresh_aggregate 90 95 [⟨0, 0, 92⟩, ⟨0, 0, 96⟩] ⟨CapStatus.zero, 0, 0⟩ 0 0
    (by decide)

/- ===== C4 ===== -/

theorem waitBmd_none_of_reach (bmdAt : Nat → Nat) (target timeout : Nat)
    (h : ∃ t, t ≤ timeout ∧ target ≤ bmdAt t) :
    waitBmd bmdAt target timeout = none := by
  obtain ⟨t, ht, hv⟩ := h
  unfold waitBmd
  rw [if_pos]
  rw [List.any_eq_true]
  exact ⟨t, List.mem_range.mpr (by omega), by simpa using hv⟩

theorem waitBmd_timeout_of_low (bmdAt : Nat → Nat) (target timeout : Nat)
    (h : ∀ t, t ≤ timeout → bmdAt t < target) :
    waitBmd bmdAt target timeout = some .bmdTimeout := by
  unfold waitBmd
  rw [if_neg]
  intro hany
  rw [List.any_eq_true] at hany
  obtain ⟨t, htm, hp⟩ := hany
  have hlt := h t (by have := List.mem_range.mp htm; omega)
  simp only [decide_eq_true_eq] at hp
  omega

theorem waitBmd_reach_of_none (bmdAt : Nat → Nat) (target timeout : Nat)
    (h : waitBmd bmdAt target timeout = none) :
    ∃ t, t ≤ timeout ∧ target ≤ bmdAt t := by
  by_contra hc
  push_neg at hc
  rw [waitBmd_timeout_of_low bmdAt target timeout hc] at h
  exact absurd h (by simp)

/-- C4: for a commit-phase request with UUID u — when no transaction record
keyed by u exists the commit returns ErrTxnNotFound; otherwise it waits,
bounded by the caller-supplied timeout, until the locally observed BMD
version reaches the transaction's bmd_version, returning ErrTxnBmdTimeout
when the deadline passes first; and the commit's side effects are performed
only after the wait succeeds (shown on the createBucket and renameBucket
commit handlers). -/
theorem c4_commit_wait (tbl : List Txn) (u : String) (timeout : Nat)
    (bmdAt : Nat → Nat) (renameDirsOk : Bool) :
    (findTxn tbl u = none →
      createBucketCommit tbl u timeout bmdAt = some TxnErr.notFound ∧
      renameBucketCommit tbl u timeout bmdAt renameDirsOk =
        { err := some TxnErr.notFound, effects := [] }) ∧
    (∀ txn, findTxn tbl u = some txn →
      ((∀ t, t ≤ timeout → bmdAt t < txn.bmdVer) →
        createBucketCommit tbl u timeout bmdAt = some TxnErr.bmdTimeout ∧
        renameBucketCommit tbl u timeout bmdAt renameDirsOk =
          { err := some TxnErr.bmdTimeout, effects := [] }) ∧
      ((∃ t, t ≤ timeout ∧ txn.bmdVer ≤ bmdAt t) →
        createBucketCommit tbl u timeout bmdAt = none) ∧
      ((renameBucketCommit tbl u timeout bmdAt renameDirsOk).effects ≠ [] →
        ∃ t, t ≤ timeout ∧ txn.bmdVer ≤ bmdAt t)) := by
  refine ⟨?_, ?_⟩
  · intro hnone
    constructor
    · simp [createBucketCommit, hnone]
    · simp [renameBucketCommit, hnone]
  · intro txn hfind
    refine ⟨?_, ?_, ?_⟩
    · intro hlow
      have hw := waitBmd_timeout_of_low bmdAt txn.bmdVer timeout hlow
      constructor
      · simp [createBucketCommit, hfind, hw]
      · simp [renameBucketCommit, hfind, hw]
    · intro hreach
      have hw := waitBmd_none_of_reach bmdAt txn.bmdVer timeout hreach
      simp [createBucketCommit, hfind, hw]
    · intro heff
      cases hw : waitBmd bmdAt txn.bmdVer timeout with
      | none => exact waitBmd_reach_of_none bmdAt txn.bmdVer timeout hw
      | some e =>
        exact absurd (by simp [renameBucketCommit, hfind, hw]) heff

/-- C4 witness: a concrete commit whose transaction requires BMD version 5
while the locally observed version stays at 0 through a timeout of 3, so
both commit handlers return ErrTxnBmdTimeout with no side effects. -/
theorem c4_commit_wait_witness :
    createBucketCommit [⟨"u", 5⟩] "u" 3 (fun _ => 0) = some TxnErr.bmdTimeout ∧
    renameBucketCommit [⟨"u", 5⟩] "u" 3 (fun _ => 0) true =
      { err := some TxnErr.bmdTimeout, effects := [] } :=
  ((c4_commit_wait [⟨"u", 5⟩] "u" 3 (fun _ => 0) true).2 ⟨"u", 5⟩ rfl).1
    (fun t _ => by show (0 : Nat) < 5; decide)

/- ===== C7 ===== -/

/-- C7: a SetBucketProps begin whose proposed props enable mirroring with a
copy count exceeding the number of available mountpaths, or newly enable EC
while the capacity error is set, fails validation and creates no transaction
record; on validation success the begin creates a typed record keyed by the
UUID and performs no bucket-dir or mirror-configuration mutation. -/
theorem c7_setprops_begin (tbl : List TxnRec) (u : String)
    (bprops nprops : BucketProps) (mpathCount : Nat) (capErr : Bool) :
    (nprops.mirror.enabled = true → (mpathCount : Int) < nprops.mirror.copies →
      (setBucketPropsBegin tbl u bprops nprops mpathCount capErr).err =
          some VErr.insufficientMpaths ∧
        (setBucketPropsBegin tbl u bprops nprops mpathCount capErr).tbl = tbl ∧
        (setBucketPropsBegin tbl u bprops nprops mpathCount capErr).mutations = []) ∧
    (nprops.ec.enabled = true → bprops.ec.enabled = false → capErr = true →
      (∃ e, (setBucketPropsBegin tbl u bprops nprops mpathCount capErr).err = some e) ∧
        (setBucketPropsBegin tbl u bprops nprops mpathCount capErr).tbl = tbl ∧
        (setBucketPropsBegin tbl u bprops nprops mpathCount capErr).mutations = []) ∧
    (validateNprops bprops nprops mpathCount capErr = none →
      (setBucketPropsBegin tbl u bprops nprops mpathCount capErr).err = none ∧
        (setBucketPropsBegin tbl u bprops nprops mpathCount capErr).mutations = [] ∧
        (tbl.any (fun x => x.uuid = u) = false →
          (setBucketPropsBegin tbl u bprops nprops mpathCount capErr).tbl =
            tbl ++ [{ uuid := u, kind := TxnKind.setBprops }])) := by
  refine ⟨?_, ?_, ?_⟩
  · intro hm hc
    have hval : validateNprops bprops nprops mpathCount capErr =
        some VErr.insufficientMpaths := by
      unfold validateNprops
      rw [if_pos (by simp [hm, hc])]
    simp [setBucketPropsBegin, hval]
  · intro hec hbec hcap
    have hval : ∃ e, validateNprops bprops nprops mpathCount capErr = some e := by
      unfold validateNprops
      by_cases h1 : (nprops.mirror.enabled &&
          decide ((mpathCount : Int) < nprops.mirror.copies)) = true
      · rw [if_pos h1]
        exact ⟨_, rfl⟩
      · rw [if_neg h1]
        by_cases h2 : (nprops.mirror.enabled &&
            decide (bprops.mirror.copies < nprops.mirror.copies) && capErr) = true
        · rw [if_pos h2]
          exact ⟨_, rfl⟩
        · rw [if_neg h2, if_pos (by simp [hec, hbec, hcap])]
          exact ⟨_, rfl⟩
    obtain ⟨e, he⟩ := hval
    refine ⟨⟨e, ?_⟩, ?_, ?_⟩ <;> simp [setBucketPropsBegin, he]
  · intro hval
    refine ⟨?_, ?_, ?_⟩
    · simp [setBucketPropsBegin, hval]
    · simp [setBucketPropsBegin, hval]
    · intro hany
      simp [setBucketPropsBegin, hval, txnBegin, hany]

/-- C7 witness: proposing a 3-way mirror with only 2 available mountpaths
fails validation and leaves the (empty) transaction table untouched. -/
theorem c7_setprops_begin_witness :
    (setBucketPropsBegin [] "u" ⟨⟨false, 0⟩, ⟨false⟩⟩ ⟨⟨true, 3⟩, ⟨false⟩⟩ 2 false).err =
        some VErr.insufficientMpaths ∧
      (setBucketPropsBegin [] "u" ⟨⟨false, 0⟩, ⟨false⟩⟩ ⟨⟨true, 3⟩, ⟨false⟩⟩ 2 false).tbl =
        [] ∧
      (setBucketPropsBegin [] "u" ⟨⟨false, 0⟩, ⟨false⟩⟩ ⟨⟨true, 3⟩, ⟨false⟩⟩ 2
          false).mutations = [] :=
  (c7_setprops_begin [] "u" ⟨⟨false, 0⟩, ⟨false⟩⟩ ⟨⟨true, 3⟩, ⟨false⟩⟩ 2 false).1
    rfl (by decide)

/- ===== C9 ===== -/

/-- C9: when the set of available mountpaths is empty, RefreshCapStatus
returns ErrNoMountpaths having performed no statfs call (and hence before the
PctAvg division by the mountpath count), and leaves the cached capacity
status and the refresh timestamps unchanged. -/
theorem c9_refresh_empty (high oosWM : Nat) (st : MfsCapState) (now nextIv : Int) :
    refreshCapStatus high oosWM [] st now nextIv =
      { res := .errNoMountpaths, state := st, statfsCalls := 0 } := rfl

/- ===== C2 ===== -/

/-- C2 counterexample: three available mountpaths, exactly one of which fails
to move its (existing) bucket directory to trash.  A majority of the
mountpaths succeeded, yet DestroyBucket returns an error — refuting the
claim that an error is returned if and only if a majority failed. -/
theorem c2_counterexample :
    destroyBucketErr [⟨true, true⟩, ⟨true, false⟩, ⟨true, false⟩] = true ∧
      ¬(2 * ([(⟨true, true⟩ : DestroyMp), ⟨true, false⟩,
          ⟨true, false⟩].countP (fun m => !moveToTrashOk m)) >
        ([(⟨true, true⟩ : DestroyMp), ⟨true, false⟩, ⟨true, false⟩]).length) := by
  decide

/-- C2 (amended): a mountpath whose bucket directory does not exist is
silently tolerated (its MoveToTrash is a no-op success), and DestroyBucket
returns an error if and only if at least one available mountpath failed to
move its bucket directory to trash. -/
theorem c2_destroy_error_iff (mps : List DestroyMp) :
    (∀ m ∈ mps, m.dirExists = false → moveToTrashOk m = true) ∧
    (destroyBucketErr mps = true ↔ ∃ m ∈ mps, moveToTrashOk m = false) := by
  constructor
  · intro m _ h
    simp [moveToTrashOk, h]
  · rw [destroyBucketErr, decide_eq_true_iff, destroyLoop_eq]
    simp only [Nat.zero_add]
    constructor
    · intro h
      by_contra hc
      push_neg at hc
      have hall : mps.countP (fun m => moveToTrashOk m) = mps.length :=
        List.countP_eq_length.mpr (by
          intro a ha
          have := hc a ha
          simpa [Bool.not_eq_false] using this)
      omega
    · rintro ⟨m, hm, hfail⟩
      have hne : mps.countP (fun m => moveToTrashOk m) ≠ mps.length := by
        intro he
        have := List.countP_eq_length.mp he m hm
        simp [hfail] at this
      have hle : mps.countP (fun m => moveToTrashOk m) ≤ mps.length :=
        List.countP_le_length _
      omega

/-- C2 witness: a concrete instance of the amended claim — one mountpath
with an existing directory that fails, one with a missing directory; the
missing one is tolerated and the overall destroy errors. -/
theorem c2_destroy_error_iff_witness :
    destroyBucketErr [⟨true, true⟩, ⟨false, true⟩] = true :=
  (c2_destroy_error_iff [⟨true, true⟩, ⟨false, true⟩]).2.mpr
    ⟨⟨true, true⟩, by decide, by decide⟩

/- ===== C8 ===== -/

/-- C8: the claim fails on the code.  `updatePaths` installs a new snapshot
with two separate atomic stores (mountfs.go:679-680) and `Get` reads with two
separate atomic loads (mountfs.go:887-888), so a reader interleaved between
the two stores observes the Available map of one mutation epoch together with
the Disabled map of another.  The schedule below is a legal interleaving of
one Get against one updatePaths and yields exactly such a torn pair. -/
theorem c8_snapshot_tear :
    Merge updatePathsSteps getSteps
        [RwStep.rAvail, RwStep.wAvail, RwStep.wDisab, RwStep.rDisab] ∧
      updateGetRun 1 2 [RwStep.rAvail, RwStep.wAvail, RwStep.wDisab, RwStep.rDisab] =
        { avail := some 1, disab := some 2 } :=
  ⟨Merge.right (Merge.left (Merge.left (Merge.right Merge.nil))), by decide⟩

/- ===== C10 ===== -/

/-- C10: at SetBucketProps commit (after the transaction is found and the
BMD wait succeeds), the PutCopies worker is aborted and MakeNCopies renewed
if and only if mirroring transitions from disabled to enabled, or stays
enabled with a changed copy count; disabling mirroring triggers neither. -/
theorem c10_commit_remirror (tbl : List TxnSetBprops) (u : String) (timeout : Nat)
    (bmdAt : Nat → Nat) (txn : TxnSetBprops)
    (hfind : findSetBprops tbl u = some txn)
    (hwait : waitBmd bmdAt txn.bmdVer timeout = none) :
    ((setBucketPropsCommit tbl u timeout bmdAt).effects =
        [MirrorEffect.abortPutCopies, MirrorEffect.renewMakeNCopies] ↔
      ((txn.bprops.mirror.enabled = false ∧ txn.nprops.mirror.enabled = true) ∨
       (txn.bprops.mirror.enabled = true ∧ txn.nprops.mirror.enabled = true ∧
        txn.bprops.mirror.copies ≠ txn.nprops.mirror.copies))) ∧
    ((txn.bprops.mirror.enabled = true ∧ txn.nprops.mirror.enabled = false) →
      (setBucketPropsCommit tbl u timeout bmdAt).effects = []) := by
  have hre : remirror txn.bprops txn.nprops = true ↔
      ((txn.bprops.mirror.enabled = false ∧ txn.nprops.mirror.enabled = true) ∨
       (txn.bprops.mirror.enabled = true ∧ txn.nprops.mirror.enabled = true ∧
        txn.bprops.mirror.copies ≠ txn.nprops.mirror.copies)) := by
    unfold remirror
    cases hb : txn.bprops.mirror.enabled <;> cases hn : txn.nprops.mirror.enabled <;>
      simp [hb, hn]
  simp only [setBucketPropsCommit, hfind, hwait]
  constructor
  · by_cases h : remirror txn.bprops txn.nprops = true
    · simp [h, hre.mp h]
    · rw [Bool.not_eq_true] at h
      rw [← hre]
      simp [h]
  · rintro ⟨hb, hn⟩
    have h : remirror txn.bprops txn.nprops = false := by
      unfold remirror
      simp [hb, hn]
    simp [h]

/-- C10 witness: a concrete commit where mirroring goes from disabled to
enabled, which does abort PutCopies and renew MakeNCopies. -/
theorem c10_commit_remirror_witness :
    (setBucketPropsCommit
        [⟨"u", 0, ⟨⟨false, 1⟩, ⟨false⟩⟩, ⟨⟨true, 2⟩, ⟨false⟩⟩⟩] "u" 0
        (fun _ => 0)).effects =
      [MirrorEffect.abortPutCopies, MirrorEffect.renewMakeNCopies] :=
  (c10_commit_remirror
      [⟨"u", 0, ⟨⟨false, 1⟩, ⟨false⟩⟩, ⟨⟨true, 2⟩, ⟨false⟩⟩⟩] "u" 0 (fun _ => 0)
      ⟨"u", 0, ⟨⟨false, 1⟩, ⟨false⟩⟩, ⟨⟨true, 2⟩, ⟨false⟩⟩⟩
      (by decide) (by decide)).1.mpr (Or.inl ⟨rfl, rfl⟩)

/- ===== C6 ===== -/

/-- C6 counterexample: with a cache that has no entry for the bucket-id,
makeDelPathBck falls back to MakePathBck, which re-inserts the entry
(mountfs.go:391-393 with 362-364); afterwards the bid entry is present and a
subsequent MakePathBck returns the cached value, not a newly computed one —
refuting the claim that makeDelPathBck removes the bid entry and that the
subsequent make_path_bck is newly computed. -/
theorem c6_counterexample :
    ¬(bpcFind (makeDelPathBck "/m" ⟨"b1", "ais", ⟨"", ""⟩, some 1⟩ 1 []).2 1 = none ∧
      (makePathBck "/m" ⟨"b1", "ais", ⟨"", ""⟩, some 1⟩
        (makeDelPathBck "/m" ⟨"b1", "ais", ⟨"", ""⟩, some 1⟩ 1 []).2).fromCache = false) := by
  intro ⟨h, _⟩
  simp [makeDelPathBck, makePathBck, bpcFind] at h

/-- C6 (amended): after makeDelPathBck(Bck, bid) on a bucket whose
properties carry that bid, a subsequent MakePathBck on the same mountpath
and bucket returns the pure composition of the inputs — never a stale cached
value; moreover, whenever the bid entry was present in the cache,
makeDelPathBck returns it, removes it, and the subsequent MakePathBck
computes its path freshly rather than from the cache. -/
theorem c6_del_then_fresh (miPath : String) (b : Bck) (bid : Nat) (bpc : BPC)
    (hbid : b.props = some bid) :
    (makePathBck miPath b (makeDelPathBck miPath b bid bpc).2).dir =
        pathOfBck miPath b ∧
    (∀ dir0, bpcFind bpc bid = some dir0 →
      (makeDelPathBck miPath b bid bpc).1 = dir0 ∧
      bpcFind (makeDelPathBck miPath b bid bpc).2 bid = none ∧
      (makePathBck miPath b (makeDelPathBck miPath b bid bpc).2).fromCache = false) := by
  cases h : bpcFind bpc bid with
  | none =>
    constructor
    · simp [makeDelPathBck, h, makePathBck, hbid, bpcFind]
    · intro dir0 h0
      exact absurd h0 (by simp)
  | some dir =>
    constructor
    · simp [makeDelPathBck, h, makePathBck, hbid, bpcFind_erase]
    · intro dir0 h0
      obtain rfl : dir = dir0 := by injection h0
      refine ⟨by simp [makeDelPathBck, h], ?_, ?_⟩
      · simp [makeDelPathBck, h, bpcFind_erase]
      · simp [makeDelPathBck, h, makePathBck, hbid, bpcFind_erase]

/-- C6 witness: a cache holding a stale directory for bid 7; after
makeDelPathBck the stale entry is gone, the stale value was what the delete
returned, and the subsequent MakePathBck computes the real path freshly. -/
theorem c6_del_then_fresh_witness :
    (makeDelPathBck "/m" ⟨"b2", "ais", ⟨"", ""⟩, some 7⟩ 7 [(7, "stale")]).1 = "stale" ∧
    bpcFind (makeDelPathBck "/m" ⟨"b2", "ais", ⟨"", ""⟩, some 7⟩ 7 [(7, "stale")]).2 7 =
      none ∧
    (makePathBck "/m" ⟨"b2", "ais", ⟨"", ""⟩, some 7⟩
        (makeDelPathBck "/m" ⟨"b2", "ais", ⟨"", ""⟩, some 7⟩ 7 [(7, "stale")]).2).dir =
      pathOfBck "/m" ⟨"b2", "ais", ⟨"", ""⟩, some 7⟩ :=
  ⟨((c6_del_then_fresh "/m" ⟨"b2", "ais", ⟨"", ""⟩, some 7⟩ 7 [(7, "stale")] rfl).2
      "stale" rfl).1,
   ((c6_del_then_fresh "/m" ⟨"b2", "ais", ⟨"", ""⟩, some 7⟩ 7 [(7, "stale")] rfl).2
      "stale" rfl).2.1,
   (c6_del_then_fresh "/m" ⟨"b2", "ais", ⟨"", ""⟩, some 7⟩ 7 [(7, "stale")] rfl).1⟩

/- ===== C1 helper lemmas ===== -/

theorem get?_mem_of_eq {α : Type} (l : List α) :
    ∀ (n : Nat) (x : α), l.get? n = some x → x ∈ l := by
  induction l with
  | nil => intro n x h; cases n <;> exact absurd h (by simp)
  | cons y ys ih =>
    intro n x h
    cases n with
    | zero =>
      have hyx : y = x := by simpa using h
      rw [← hyx]
      exact List.mem_cons_self y ys
    | succ n2 => exact List.mem_cons_of_mem y (ih n2 x h)

theorem get?_map_f {α β : Type} (g : α → β) (l : List α) :
    ∀ n, (l.map g).get? n = (l.get? n).map g := by
  induction l with
  | nil => intro n; cases n <;> rfl
  | cons y ys ih =>
    intro n
    cases n with
    | zero => rfl
    | succ n2 => exact ih n2

theorem get?_set_self (l : List BckDirs) : ∀ (i : Nat) (a : BckDirs),
    (l.set i a).get? i = (l.get? i).map (fun _ => a) := by
  induction l with
  | nil => intro i a; cases i <;> rfl
  | cons d ds ih =>
    intro i a
    cases i with
    | zero => rfl
    | succ j => exact ih j a

theorem get?_set_other (l : List BckDirs) : ∀ (i j : Nat), i ≠ j → ∀ (a : BckDirs),
    (l.set i a).get? j = l.get? j := by
  induction l with
  | nil => intro i j _ a; rfl
  | cons d ds ih =>
    intro i j hne a
    cases i with
    | zero =>
      cases j with
      | zero => exact absurd rfl hne
      | succ j2 => rfl
    | succ i2 =>
      cases j with
      | zero => rfl
      | succ j2 => exact ih i2 j2 (fun h => hne (by rw [h])) a

theorem rbStep_get?_other (f : Nat → Bool) (dirs : List BckDirs) (i j : Nat)
    (hne : i ≠ j) : (rbStep f dirs i).get? j = dirs.get? j := by
  unfold rbStep
  cases h : dirs.get? i with
  | none => rfl
  | some d =>
    show (if (d.dstExists && f i) = true then dirs.set i ⟨true, false⟩
        else dirs).get? j = dirs.get? j
    by_cases hc : (d.dstExists && f i) = true
    · rw [if_pos hc]
      exact get?_set_other dirs i j hne ⟨true, false⟩
    · rw [if_neg hc]

theorem rbStep_get?_self (f : Nat → Bool) (dirs : List BckDirs) (i : Nat) :
    (rbStep f dirs i).get? i =
      (dirs.get? i).map
        (fun d => if d.dstExists && f i then BckDirs.mk true false else d) := by
  unfold rbStep
  cases h : dirs.get? i with
  | none =>
    rw [h]
    rfl
  | some d =>
    show (if (d.dstExists && f i) = true then dirs.set i ⟨true, false⟩
        else dirs).get? i =
      (some d).map
        (fun d => if d.dstExists && f i then BckDirs.mk true false else d)
    by_cases hc : (d.dstExists && f i) = true
    · rw [if_pos hc, get?_set_self, h]
      show some (BckDirs.mk true false) =
        some (if (d.dstExists && f i) = true then BckDirs.mk true false else d)
      rw [if_pos hc]
    · rw [if_neg hc, h]
      show some d =
        some (if (d.dstExists && f i) = true then BckDirs.mk true false else d)
      rw [if_neg hc]

theorem rollbackPass_trace (f : Nat → Bool) :
    ∀ (is : List Nat) (dirs : List BckDirs), (rollbackPass f dirs is).2 = is := by
  intro is
  induction is with
  | nil => intro dirs; rfl
  | cons i is2 ih =>
    intro dirs
    simp [rollbackPass, ih]

theorem rollbackPass_get?_not_mem (f : Nat → Bool) :
    ∀ (is : List Nat) (dirs : List BckDirs) (j : Nat), j ∉ is →
      (rollbackPass f dirs is).1.get? j = dirs.get? j := by
  intro is
  induction is with
  | nil => intro dirs j _; rfl
  | cons i is2 ih =>
    intro dirs j hj
    have hji : i ≠ j := fun h => hj (by rw [← h]; exact List.mem_cons_self i is2)
    have hj2 : j ∉ is2 := fun h => hj (List.mem_cons_of_mem i h)
    show (rollbackPass f (rbStep f dirs i) is2).1.get? j = dirs.get? j
    rw [ih (rbStep f dirs i) j hj2, rbStep_get?_other f dirs i j hji]

theorem rollbackPass_get?_mem (f : Nat → Bool) :
    ∀ (is : List Nat), is.Nodup → ∀ (dirs : List BckDirs) (j : Nat), j ∈ is →
      (rollbackPass f dirs is).1.get? j =
        (dirs.get? j).map
          (fun d => if d.dstExists && f j then BckDirs.mk true false else d) := by
  intro is
  induction is with
  | nil => intro _ dirs j hj; cases hj
  | cons i is2 ih =>
    intro hnd dirs j hj
    have hnd2 : is2.Nodup := (List.nodup_cons.mp hnd).2
    have hni : i ∉ is2 := (List.nodup_cons.mp hnd).1
    show (rollbackPass f (rbStep f dirs i) is2).1.get? j = _
    rcases List.mem_cons.mp hj with hji | hj2
    · subst hji
      rw [rollbackPass_get?_not_mem f is2 (rbStep f dirs j) j hni]
      exact rbStep_get?_self f dirs j
    · have hij : i ≠ j := fun h => hni (by rw [h]; exact hj2)
      rw [ih hnd2 (rbStep f dirs i) j hj2, rbStep_get?_other f dirs i j hij]

theorem fwdPass_fail_spec :
    ∀ (mps : List RenameMp) (i k : Nat),
      (∀ m ∈ mps, m.dirs = BckDirs.mk true false) →
      (fwdPass mps i).2.2 = some k →
      i ≤ k ∧ k - i < mps.length ∧
      (∀ x, x ∈ (fwdPass mps i).2.1 ↔ (i ≤ x ∧ x < k)) ∧
      (fwdPass mps i).2.1.Nodup ∧
      (∃ m, mps.get? (k - i) = some m ∧ m.fwdOk = false) ∧
      (∀ j, j < k - i → ∃ m, mps.get? j = some m ∧ m.fwdOk = true) ∧
      (∀ j, (fwdPass mps i).1.get? j =
        (mps.get? j).map (fun _ =>
          if i + j < k then BckDirs.mk false true else BckDirs.mk true false)) := by
  intro mps
  induction mps with
  | nil =>
    intro i k _ herr
    exact absurd herr (by simp [fwdPass])
  | cons m rest ih =>
    intro i k hsrc herr
    have hm : m.dirs = BckDirs.mk true false := hsrc m (List.mem_cons_self m rest)
    have hrest : ∀ x ∈ rest, x.dirs = BckDirs.mk true false :=
      fun x hx => hsrc x (List.mem_cons_of_mem m hx)
    by_cases hgo : (m.dirs.srcExists && m.fwdOk) = true
    · have hfwd : m.fwdOk = true := by
        rw [hm] at hgo
        simpa using hgo
      have hunf : fwdPass (m :: rest) i =
          (BckDirs.mk false true :: (fwdPass rest (i + 1)).1,
            i :: (fwdPass rest (i + 1)).2.1, (fwdPass rest (i + 1)).2.2) := by
        simp [fwdPass, hgo]
      have herr2 : (fwdPass rest (i + 1)).2.2 = some k := by
        rw [hunf] at herr
        exact herr
      obtain ⟨h1, h2, h3, h4, h5, h6, h7⟩ := ih (i + 1) k hrest herr2
      rw [hunf]
      refine ⟨by omega, by simp [List.length_cons]; omega, ?_, ?_, ?_, ?_, ?_⟩
      · intro x
        rw [List.mem_cons, h3 x]
        constructor
        · rintro (rfl | ⟨ha, hb⟩) <;> omega
        · rintro ⟨ha, hb⟩
          by_cases hxi : x = i
          · exact Or.inl hxi
          · exact Or.inr ⟨by omega, hb⟩
      · rw [List.nodup_cons]
        refine ⟨?_, h4⟩
        intro hmem
        have := (h3 i).mp hmem
        omega
      · obtain ⟨m2, hg, hfl⟩ := h5
        refine ⟨m2, ?_, hfl⟩
        have hki : k - i = (k - (i + 1)) + 1 := by omega
        rw [hki]
        exact hg
      · intro j hj
        cases j with
        | zero => exact ⟨m, rfl, hfwd⟩
        | succ j2 => exact h6 j2 (by omega)
      · intro j
        cases j with
        | zero =>
          have hik : i + 0 < k := by omega
          show some (BckDirs.mk false true) =
            some (if i + 0 < k then BckDirs.mk false true else BckDirs.mk true false)
          rw [if_pos hik]
        | succ j2 =>
          show (fwdPass rest (i + 1)).1.get? j2 =
            (rest.get? j2).map (fun _ =>
              if i + (j2 + 1) < k then BckDirs.mk false true else BckDirs.mk true false)
          rw [h7 j2]
          simp only [show i + 1 + j2 = i + (j2 + 1) from by omega]
    · have hunf : fwdPass (m :: rest) i =
          (BckDirs.mk m.dirs.srcExists false :: rest.map RenameMp.dirs, [], some i) := by
        rw [Bool.not_eq_true] at hgo
        simp [fwdPass, hgo]
      have hk : k = i := by
        rw [hunf] at herr
        exact (Option.some.inj herr).symm
      have hsrcT : m.dirs.srcExists = true := by rw [hm]
      have hfl : m.fwdOk = false := by
        rw [Bool.not_eq_true] at hgo
        rw [hsrcT] at hgo
        simpa using hgo
      rw [hunf, hk]
      refine ⟨Nat.le_refl i, by simp [Nat.sub_self, List.length_cons], ?_, by simp, ?_,
        ?_, ?_⟩
      · intro x
        constructor
        · intro hx
          exact absurd hx (List.not_mem_nil x)
        · intro hx
          exact absurd hx (by omega)
      · refine ⟨m, ?_, hfl⟩
        rw [Nat.sub_self]
        rfl
      · intro j hj
        rw [Nat.sub_self] at hj
        exact absurd hj (Nat.not_lt_zero j)
      · intro j
        cases j with
        | zero =>
          have hni : ¬(i + 0 < i) := by omega
          show some (BckDirs.mk m.dirs.srcExists false) =
            some (if i + 0 < i then BckDirs.mk false true else BckDirs.mk true false)
          rw [if_neg hni, hsrcT]
        | succ j2 =>
          show (rest.map RenameMp.dirs).get? j2 =
            (rest.get? j2).map (fun _ =>
              if i + (j2 + 1) < i then BckDirs.mk false true else BckDirs.mk true false)
          have hni : ¬(i + (j2 + 1) < i) := by omega
          rw [get?_map_f RenameMp.dirs rest j2]
          cases hr : rest.get? j2 with
          | none => rfl
          | some x =>
            have hx : x.dirs = BckDirs.mk true false :=
              hrest x (get?_mem_of_eq rest j2 x hr)
            show some x.dirs =
              some (if i + (j2 + 1) < i then BckDirs.mk false true
                else BckDirs.mk true false)
            rw [if_neg hni, hx]

/- ===== C1 ===== -/

/-- C1 counterexample: three mountpaths with the source directory present
everywhere; the forward renames succeed on the first two and fail on the
third, and the rollback rename fails on the first.  The rollback iterates
the renamed slice in forward order [0, 1] — not the claimed reverse order
[1, 0] — and mountpath 0, whose rollback rename failed, is left observing
the destination and not the source. -/
theorem c1_counterexample :
    (renameBucketDirs
        [⟨⟨true, false⟩, true, false⟩, ⟨⟨true, false⟩, true, true⟩,
          ⟨⟨true, false⟩, false, true⟩]).err = some 2 ∧
    ¬((renameBucketDirs
          [⟨⟨true, false⟩, true, false⟩, ⟨⟨true, false⟩, true, true⟩,
            ⟨⟨true, false⟩, false, true⟩]).rollbackIdx =
        (renameBucketDirs
          [⟨⟨true, false⟩, true, false⟩, ⟨⟨true, false⟩, true, true⟩,
            ⟨⟨true, false⟩, false, true⟩]).renamedIdx.reverse ∧
      ∀ d ∈ (renameBucketDirs
          [⟨⟨true, false⟩, true, false⟩, ⟨⟨true, false⟩, true, true⟩,
            ⟨⟨true, false⟩, false, true⟩]).dirs,
        d.srcExists = true ∧ d.dstExists = false) := by
  decide

/-- C1 (amended): if every available mountpath initially holds the source
bucket directory and no destination directory, and RenameBucketDirs fails,
then the returned error is the original rename error — the first mountpath
whose forward rename failed, never a rollback error; the already-renamed
mountpaths are rolled back in the order they were renamed (the code iterates
the renamed slice forward); and every mountpath whose rollback rename did
not itself fail — including the failed and untouched ones — observes the
source and not the destination. -/
theorem c1_rename_rollback (mps : List RenameMp) (k : Nat)
    (hsrc : ∀ m ∈ mps, m.dirs = BckDirs.mk true false)
    (herr : (renameBucketDirs mps).err = some k) :
    (∃ m, mps.get? k = some m ∧ m.fwdOk = false) ∧
    (∀ j, j < k → ∃ m, mps.get? j = some m ∧ m.fwdOk = true) ∧
    (renameBucketDirs mps).rollbackIdx = (renameBucketDirs mps).renamedIdx ∧
    (∀ j m d, mps.get? j = some m →
      (renameBucketDirs mps).dirs.get? j = some d →
      (j ∉ (renameBucketDirs mps).renamedIdx ∨ m.rbOk = true) →
      d = BckDirs.mk true false) := by
  have hf : (fwdPass mps 0).2.2 = some k := by
    unfold renameBucketDirs at herr
    cases hc : (fwdPass mps 0).2.2 with
    | none =>
      rw [hc] at herr
      simp at herr
    | some k2 =>
      rw [hc] at herr
      simp at herr
      rw [herr]
  have hout : renameBucketDirs mps =
      { dirs := (rollbackPass (rbOkOf mps) (fwdPass mps 0).1 (fwdPass mps 0).2.1).1
        renamedIdx := (fwdPass mps 0).2.1
        rollbackIdx := (rollbackPass (rbOkOf mps) (fwdPass mps 0).1 (fwdPass mps 0).2.1).2
        err := some k } := by
    unfold renameBucketDirs
    rw [hf]
  obtain ⟨h1, h2, h3, h4, h5, h6, h7⟩ := fwdPass_fail_spec mps 0 k hsrc hf
  rw [Nat.sub_zero] at h2 h5 h6
  refine ⟨h5, fun j hj => h6 j hj, ?_, ?_⟩
  · rw [hout]
    exact rollbackPass_trace (rbOkOf mps) (fwdPass mps 0).2.1 (fwdPass mps 0).1
  · intro j m d hmj hdj hcase
    have hdj2 : (rollbackPass (rbOkOf mps) (fwdPass mps 0).1
        (fwdPass mps 0).2.1).1.get? j = some d := by
      rw [hout] at hdj
      exact hdj
    have hcase2 : j ∉ (fwdPass mps 0).2.1 ∨ m.rbOk = true := by
      rw [hout] at hcase
      exact hcase
    by_cases hmem : j ∈ (fwdPass mps 0).2.1
    · have hjk : j < k := ((h3 j).mp hmem).2
      have h0jk : 0 + j < k := by omega
      have hfd : (fwdPass mps 0).1.get? j = some (BckDirs.mk false true) := by
        rw [h7 j, hmj]
        show some (if 0 + j < k then BckDirs.mk false true else BckDirs.mk true false) =
          some (BckDirs.mk false true)
        rw [if_pos h0jk]
      have hrb : m.rbOk = true := by
        rcases hcase2 with hnot | hrb
        · exact absurd hmem hnot
        · exact hrb
      have hfj : rbOkOf mps j = true := by
        unfold rbOkOf
        rw [hmj]
        simpa using hrb
      rw [rollbackPass_get?_mem (rbOkOf mps) (fwdPass mps 0).2.1 h4
        (fwdPass mps 0).1 j hmem, hfd] at hdj2
      have hdj3 : some (if (BckDirs.mk false true).dstExists && rbOkOf mps j
          then BckDirs.mk true false else BckDirs.mk false true) = some d := hdj2
      have hcnd : ((BckDirs.mk false true).dstExists && rbOkOf mps j) = true := by
        rw [hfj]
        rfl
      rw [if_pos hcnd] at hdj3
      exact (Option.some.inj hdj3).symm
    · have hjk : ¬(0 ≤ j ∧ j < k) := fun hx => hmem ((h3 j).mpr hx)
      have hnjk : ¬(0 + j < k) := by omega
      rw [rollbackPass_get?_not_mem (rbOkOf mps) (fwdPass mps 0).2.1
        (fwdPass mps 0).1 j hmem, h7 j, hmj] at hdj2
      have hdj3 : some (if 0 + j < k then BckDirs.mk false true
          else BckDirs.mk true false) = some d := hdj2
      rw [if_neg hnjk] at hdj3
      exact (Option.some.inj hdj3).symm

/-- C1 witness: two mountpaths, the second forward rename fails, the first
rollback rename succeeds; instantiates the amended theorem at that input. -/
theorem c1_rename_rollback_witness :
    (∃ m, [(⟨⟨true, false⟩, true, true⟩ : RenameMp),
        ⟨⟨true, false⟩, false, true⟩].get? 1 = some m ∧ m.fwdOk = false) ∧
    (∀ j, j < 1 → ∃ m, [(⟨⟨true, false⟩, true, true⟩ : RenameMp),
        ⟨⟨true, false⟩, false, true⟩].get? j = some m ∧ m.fwdOk = true) ∧
    (renameBucketDirs [⟨⟨true, false⟩, true, true⟩,
        ⟨⟨true, false⟩, false, true⟩]).rollbackIdx =
      (renameBucketDirs [⟨⟨true, false⟩, true, true⟩,
        ⟨⟨true, false⟩, false, true⟩]).renamedIdx ∧
    (∀ j m d, [(⟨⟨true, false⟩, true, true⟩ : RenameMp),
        ⟨⟨true, false⟩, false, true⟩].get? j = some m →
      (renameBucketDirs [⟨⟨true, false⟩, true, true⟩,
          ⟨⟨true, false⟩, false, true⟩]).dirs.get? j = some d →
      (j ∉ (renameBucketDirs [⟨⟨true, false⟩, true, true⟩,
          ⟨⟨true, false⟩, false, true⟩]).renamedIdx ∨ m.rbOk = true) →
      d = BckDirs.mk true false) :=
  c1_rename_rollback
    [⟨⟨true, false⟩, true, true⟩, ⟨⟨true, false⟩, false, true⟩] 1
    (by decide) (by decide)

/- ===== C5 ===== -/

theorem createBckDirs_append_ok (nilbmd : Bool) :
    ∀ (pre : List CTDir), (∀ x ∈ pre, ctOk nilbmd x = true) →
      ∀ (rest : List CTDir) (num : Nat),
        createBckDirs nilbmd (pre ++ rest) num =
          createBckDirs nilbmd rest (num + pre.length) := by
  intro pre
  induction pre with
  | nil =>
    intro _ rest num
    simp
  | cons d ds ih =>
    intro h rest num
    have hd : ctOk nilbmd d = true := h d (List.mem_cons_self d ds)
    have hds : ∀ x ∈ ds, ctOk nilbmd x = true :=
      fun x hx => h x (List.mem_cons_of_mem d hx)
    have hstep : createBckDirs nilbmd (d :: (ds ++ rest)) num =
        createBckDirs nilbmd (ds ++ rest) (num + 1) := by
      by_cases hst : d.state = DirState.missing
      · have hcf : d.createFail = false := by
          unfold ctOk at hd
          rw [if_neg (by simp [hst])] at hd
          simpa using hd
        simp [createBckDirs, hst, hcf]
      · have hd2 : (nilbmd ||
            (!d.emptyCheckFail &&
              (decide (d.state ≠ DirState.nonEmptyDir) || d.isWork))) = true := by
          unfold ctOk at hd
          rwa [if_pos hst] at hd
        cases hn : nilbmd with
        | true => simp [createBckDirs, hst, hn]
        | false =>
          rw [hn] at hd2
          have hX : (!d.emptyCheckFail &&
              (decide (d.state ≠ DirState.nonEmptyDir) || d.isWork)) = true := by
            simpa using hd2
          have hparts : (!d.emptyCheckFail) = true ∧
              (decide (d.state ≠ DirState.nonEmptyDir) || d.isWork) = true := by
            simpa [Bool.and_eq_true] using hX
          have hecf : d.emptyCheckFail = false := by
            have := hparts.1
            simpa using this
          have hcase : (decide (d.state ≠ DirState.nonEmptyDir) || d.isWork) = true :=
            hparts.2
          by_cases hne2 : d.state = DirState.nonEmptyDir
          · have hw : d.isWork = true := by
              have hor : (decide (d.state ≠ DirState.nonEmptyDir)) = true ∨
                  d.isWork = true := by
                simpa [Bool.or_eq_true] using hcase
              rcases hor with ha | hb
              · exact absurd hne2 (of_decide_eq_true ha)
              · exact hb
            simp [createBckDirs, hst, hn, hecf, hne2, hw]
          · simp [createBckDirs, hst, hn, hecf, hne2]
    rw [List.cons_append, hstep, ih hds rest (num + 1)]
    congr 1
    simp [List.length_cons]
    omega

/-- C5 counterexample: with nilbmd false, an already-existing non-empty
directory of the workfile content type does not fail createBckDirs — the
error is only logged (mountfs.go:416-419) and the directory counted — so the
call succeeds, refuting the claim that it fails with the
bucket-dir-not-empty error for every registered content type. -/
theorem c5_counterexample :
    createBckDirs false [⟨true, DirState.nonEmptyDir, false, false⟩] 0 = CbdRes.ok 1 ∧
      ∀ n, createBckDirs false [⟨true, DirState.nonEmptyDir, false, false⟩] 0 ≠
        CbdRes.errNotEmpty n := by
  refine ⟨by decide, ?_⟩
  intro n h
  rw [(by decide :
    createBckDirs false [⟨true, DirState.nonEmptyDir, false, false⟩] 0 =
      CbdRes.ok 1)] at h
  exact CbdRes.noConfusion h

/-- C5 (amended): for every mountpath, bucket, and registered content type —
after any prefix of content types that process cleanly — a missing directory
is created and counted; an existing non-empty directory with nilbmd false
fails with the bucket-dir-not-empty error unless the content type is the
workfile type, in which case (as with nilbmd true) the error is only logged
and the directory counted as created. -/
theorem c5_create_bck_dirs (nilbmd : Bool) (pre rest : List CTDir) (d : CTDir)
    (num : Nat) (hpre : ∀ x ∈ pre, ctOk nilbmd x = true) :
    (d.state = DirState.missing → d.createFail = false →
      createBckDirs nilbmd (pre ++ d :: rest) num =
        createBckDirs nilbmd rest (num + pre.length + 1)) ∧
    (nilbmd = false → d.state = DirState.nonEmptyDir → d.emptyCheckFail = false →
      d.isWork = false →
      createBckDirs nilbmd (pre ++ d :: rest) num =
        CbdRes.errNotEmpty (num + pre.length)) ∧
    (d.state = DirState.nonEmptyDir →
      (nilbmd = true ∨ (d.isWork = true ∧ d.emptyCheckFail = false)) →
      createBckDirs nilbmd (pre ++ d :: rest) num =
        createBckDirs nilbmd rest (num + pre.length + 1)) := by
  have hskip := createBckDirs_append_ok nilbmd pre hpre (d :: rest) num
  refine ⟨?_, ?_, ?_⟩
  · intro hst hcf
    rw [hskip]
    simp [createBckDirs, hst, hcf]
  · intro hn hst hecf hw
    rw [hskip]
    simp [createBckDirs, hst, hn, hecf, hw]
  · intro hst hcase
    rw [hskip]
    rcases hcase with hn | ⟨hw, hecf⟩
    · simp [createBckDirs, hst, hn]
    · cases hn2 : nilbmd with
      | true => simp [createBckDirs, hst, hn2]
      | false => simp [createBckDirs, hst, hn2, hecf, hw]

/-- C5 witness: a missing objects directory followed by a non-empty,
non-workfile directory with nilbmd false — the first is created and counted,
the second fails the call with the bucket-dir-not-empty error. -/
theorem c5_create_bck_dirs_witness :
    createBckDirs false
        ([⟨false, DirState.missing, false, false⟩] ++
          ⟨false, DirState.nonEmptyDir, false, false⟩ :: []) 0 =
      CbdRes.errNotEmpty (0 + [(⟨false, DirState.missing, false, false⟩ : CTDir)].length) :=
  (c5_create_bck_dirs false [⟨false, DirState.missing, false, false⟩] []
      ⟨false, DirState.nonEmptyDir, false, false⟩ 0 (by decide)).2.1
    rfl rfl rfl rfl

end AIStore
